import Mathlib

/-!
Verification development for the OpenAiServer repository.

The repository serves document Q&A over server-sent events.  The core logic
lives in `src/index.js`:

* `stripLeadingPhrases` — a chain of six anchored regex replacements that
  remove (partial) occurrences of the refusal sentence from the front of a
  string;
* `isLikelyChitchat` — a heuristic greeting classifier;
* `SimpleVectorStore.getScoresForQuery` / `asRetriever` and the docs branch of
  `askDocsStream` — the retrieval policy over sorted score lists;
* `streamModelResponse` — the streaming response controller (buffering,
  pacing, terminal fallback, `[DONE]` marker, client-disconnect handling).

Strings are modelled as `List Char` (JavaScript strings are sequences of
UTF-16 code units; all the characters involved here are single code units).
JavaScript numbers used by the controller are modelled as `Int` / `Nat`, and
similarity scores as `ℚ` (the policies only compare scores, they never do
float arithmetic on them).  Every anchored `replace(/^.../, "")` call removes
a prefix of the string, so each regex is modelled as a function computing the
length of the match at position 0, with the replacement being `List.drop`.
-/

namespace OpenAiServer

/-! ## Character classes used by the JavaScript regexes -/

/-- JavaScript regex `\w`: `[A-Za-z0-9_]`. -/
def jsWord (c : Char) : Bool :=
  ('a' ≤ c && c ≤ 'z') || ('A' ≤ c && c ≤ 'Z') || ('0' ≤ c && c ≤ '9') || c == '_'

/-- JavaScript regex `\s` (WhiteSpace and LineTerminator code points). -/
def jsSpace (c : Char) : Bool :=
  c == ' ' || c == '\t' || c == '\n' || c == '\r' ||
  c == Char.ofNat 0x0b || c == Char.ofNat 0x0c ||
  c == Char.ofNat 0xa0 || c == Char.ofNat 0x1680 ||
  (0x2000 ≤ c.toNat && c.toNat ≤ 0x200a) ||
  c == Char.ofNat 0x2028 || c == Char.ofNat 0x2029 ||
  c == Char.ofNat 0x202f || c == Char.ofNat 0x205f ||
  c == Char.ofNat 0x3000 || c == Char.ofNat 0xfeff

/-- Right single quotation mark U+2019, written `’` / `’` in the source. -/
def rsq : Char := Char.ofNat 0x2019

/-- Backtick U+0060. -/
def btick : Char := Char.ofNat 0x60

/-- The character class `[\s,.:;!()-]` that ends regex rules 1–4. -/
def punctTail (c : Char) : Bool :=
  jsSpace c || c == ',' || c == '.' || c == ':' || c == ';' || c == '!' ||
  c == '(' || c == ')' || c == '-'

/-- The character class of rule 5, `[\s"'`’\.\,\:\;\-\(\)]`. -/
def punctFive (c : Char) : Bool :=
  jsSpace c || c == '"' || c == '\'' || c == btick || c == rsq ||
  c == '.' || c == ',' || c == ':' || c == ';' || c == '-' ||
  c == '(' || c == ')'

/-- The apostrophe class `['’`’]` of rule 3 (U+2019 appears twice). -/
def apoClass (c : Char) : Bool :=
  c == '\'' || c == rsq || c == btick

/-- Number of leading characters of `l` satisfying `p`. -/
def countLeading (p : Char → Bool) : List Char → Nat
  | [] => 0
  | c :: r => if p c then countLeading p r + 1 else 0

/-! ## A tiny matcher for the anchored patterns of `stripLeadingPhrases`

Each regex in the source is anchored at `^` and used with `replace(..., "")`,
so the only information needed is the length of the match at position 0.
Alternations are tried in source order (JavaScript regexes commit to the
leftmost alternative that lets the rest of the pattern succeed).  The only
quantifiers occurring are `\s*`, `\s+`, `'?` and `\.?`; in every pattern the
atom following `\s*` / `\s+` is a non-space literal and the atom following
`\.?` is the end of the (boundary-checked) core, so the greedy match never
needs to backtrack, and the `'?` option is expanded into two alternatives
(with the apostrophe first, as the greedy quantifier tries it first). -/

inductive PatAtom where
  | lit (c : Char)
  | cls (p : Char → Bool)
  | spacePlus
  | spaceStar
  | optDot

/-- Match a sequence of atoms at the start of `l`; return the number of
characters consumed.  Literals compare case-insensitively (`/i` flag); the
flag is irrelevant for the punctuation literals. -/
def matchAtoms : List PatAtom → List Char → Option Nat
  | [], _ => some 0
  | PatAtom.lit c :: ps, d :: r =>
      if d.toLower == c.toLower then (matchAtoms ps r).map (· + 1) else none
  | PatAtom.lit _ :: _, [] => none
  | PatAtom.cls p :: ps, d :: r =>
      if p d then (matchAtoms ps r).map (· + 1) else none
  | PatAtom.cls _ :: _, [] => none
  | PatAtom.spacePlus :: ps, l =>
      let n := countLeading jsSpace l
      if n == 0 then none else (matchAtoms ps (l.drop n)).map (· + n)
  | PatAtom.spaceStar :: ps, l =>
      let n := countLeading jsSpace l
      (matchAtoms ps (l.drop n)).map (· + n)
  | PatAtom.optDot :: ps, l =>
      match l with
      | '.' :: r => (matchAtoms ps r).map (· + 1)
      | _ => matchAtoms ps l

/-- Word boundary `\b` placed right after a match of length `n` whose last
character is a word character: it holds iff the input ends there or the next
character is not a word character. -/
def boundaryAfter (l : List Char) (n : Nat) : Bool :=
  match l.drop n with
  | [] => true
  | c :: _ => !jsWord c

/-- One alternative: its atom sequence and whether a `\b` follows its core. -/
structure Alt where
  pat : List PatAtom
  bd : Bool

/-- Try the alternatives in order; on the first whose core (and boundary, if
required) matches, consume the trailing character-class star greedily and
return the total matched length. -/
def matchAlts (alts : List Alt) (tail : Char → Bool) (l : List Char) : Option Nat :=
  match alts with
  | [] => none
  | a :: rest =>
      match matchAtoms a.pat l with
      | some n =>
          if a.bd && !boundaryAfter l n then matchAlts rest tail l
          else some (n + countLeading tail (l.drop n))
      | none => matchAlts rest tail l

/-- Apply one anchored `replace(/^pattern/, "")`: drop the match, if any. -/
def applyRule (alts : List Alt) (tail : Char → Bool) (l : List Char) : List Char :=
  match matchAlts alts tail l with
  | some n => l.drop n
  | none => l

/-- Shorthand: a list of case-insensitive literal atoms. -/
def lits (cs : List Char) : List PatAtom := cs.map PatAtom.lit

/-! ## The six rules of `stripLeadingPhrases` (src/index.js lines 146–169) -/

/-- Rule 1: `^(?:I\s*(?:don'?t|don’t|do\s+not|do not|do|dont|i\s+don))\b[\s,.:;!()-]*`
with `/i`.  The `'?` in `don'?t` is expanded into the two alternatives
`don't`, `dont` in greedy order. -/
def rule1Alts : List Alt :=
  let pre : List PatAtom := [PatAtom.lit 'i', PatAtom.spaceStar]
  [ ⟨pre ++ lits ['d', 'o', 'n', '\'', 't'], true⟩,
    ⟨pre ++ lits ['d', 'o', 'n', 't'], true⟩,
    ⟨pre ++ lits ['d', 'o', 'n', rsq, 't'], true⟩,
    ⟨pre ++ (lits ['d', 'o'] ++ [PatAtom.spacePlus] ++ lits ['n', 'o', 't']), true⟩,
    ⟨pre ++ lits ['d', 'o', ' ', 'n', 'o', 't'], true⟩,
    ⟨pre ++ lits ['d', 'o'], true⟩,
    ⟨pre ++ lits ['d', 'o', 'n', 't'], true⟩,
    ⟨pre ++ ([PatAtom.lit 'i', PatAtom.spacePlus] ++ lits ['d', 'o', 'n']), true⟩ ]

/-- Rule 2: `^(?:know(?:\s+based\s+on\s+the\s+provided\s+documents\.?)?|\bknow\b)[\s,.:;!()-]*`
with `/i`.  The optional group is expanded (present first, as greedy), and
note that the first alternative carries no trailing `\b`; the second
alternative is therefore unreachable but kept for fidelity. -/
def rule2Alts : List Alt :=
  let know := lits ['k', 'n', 'o', 'w']
  let longTail : List PatAtom :=
    [PatAtom.spacePlus] ++ lits ['b', 'a', 's', 'e', 'd'] ++
    [PatAtom.spacePlus] ++ lits ['o', 'n'] ++
    [PatAtom.spacePlus] ++ lits ['t', 'h', 'e'] ++
    [PatAtom.spacePlus] ++ lits ['p', 'r', 'o', 'v', 'i', 'd', 'e', 'd'] ++
    [PatAtom.spacePlus] ++ lits ['d', 'o', 'c', 'u', 'm', 'e', 'n', 't', 's'] ++
    [PatAtom.optDot]
  [ ⟨know ++ longTail, false⟩,
    ⟨know, false⟩,
    ⟨know, true⟩ ]

/-- Rule 3: `^(?:n'?t|['’`’]t|n’t)\b[\s,.:;!()-]*` with `/i`. -/
def rule3Alts : List Alt :=
  [ ⟨lits ['n', '\'', 't'], true⟩,
    ⟨lits ['n', 't'], true⟩,
    ⟨[PatAtom.cls apoClass, PatAtom.lit 't'], true⟩,
    ⟨lits ['n', rsq, 't'], true⟩ ]

/-- Rule 4: `^(?:don|i|i\s+don)\b[\s,.:;!()-]*` with `/i`. -/
def rule4Alts : List Alt :=
  [ ⟨lits ['d', 'o', 'n'], true⟩,
    ⟨[PatAtom.lit 'i'], true⟩,
    ⟨[PatAtom.lit 'i', PatAtom.spacePlus] ++ lits ['d', 'o', 'n'], true⟩ ]

/-- `stripLeadingPhrases` from src/index.js: the guard `if (!text) return
text` followed by the six anchored replacements, in order.  Rule 0 is
`^\s+`, rule 5 is `^[\s"'`’\.\,\:\;\-\(\)]+`; both are plain class repeats
and are modelled by dropping the counted leading class characters (a
zero-length "match" drops nothing, which coincides with the `+` requiring at
least one character). -/
def stripLeadingPhrases (l : List Char) : List Char :=
  if l = [] then l
  else
    let t0 := l.drop (countLeading jsSpace l)
    let t1 := applyRule rule1Alts punctTail t0
    let t2 := applyRule rule2Alts punctTail t1
    let t3 := applyRule rule3Alts punctTail t2
    let t4 := applyRule rule4Alts punctTail t3
    t4.drop (countLeading punctFive t4)

/-! ## `isLikelyChitchat` (src/index.js lines 172–189) -/

/-- `String.prototype.trim`: remove leading and trailing whitespace. -/
def jsTrim (l : List Char) : List Char :=
  ((l.dropWhile (jsSpace ·)).reverse.dropWhile (jsSpace ·)).reverse

/-- `String.prototype.toLowerCase`, restricted to the ASCII case mapping
(all characters the classifier's rules inspect are ASCII). -/
def toLowerStr (l : List Char) : List Char := l.map Char.toLower

/-- The trailing class `[\s!.,?]` of the greeting regex. -/
def greetClass (c : Char) : Bool :=
  jsSpace c || c == '!' || c == '.' || c == ',' || c == '?'

/-- The alternatives of
`^(hi|hello|hey|iya|hallo|good (morning|afternoon|evening)|thanks|thank you|bye|goodbye|sup|yo|what's up|whats up)[\s!.,?]*$`. -/
def greetings : List (List Char) :=
  [ ['h', 'i'],
    ['h', 'e', 'l', 'l', 'o'],
    ['h', 'e', 'y'],
    ['i', 'y', 'a'],
    ['h', 'a', 'l', 'l', 'o'],
    ['g', 'o', 'o', 'd', ' ', 'm', 'o', 'r', 'n', 'i', 'n', 'g'],
    ['g', 'o', 'o', 'd', ' ', 'a', 'f', 't', 'e', 'r', 'n', 'o', 'o', 'n'],
    ['g', 'o', 'o', 'd', ' ', 'e', 'v', 'e', 'n', 'i', 'n', 'g'],
    ['t', 'h', 'a', 'n', 'k', 's'],
    ['t', 'h', 'a', 'n', 'k', ' ', 'y', 'o', 'u'],
    ['b', 'y', 'e'],
    ['g', 'o', 'o', 'd', 'b', 'y', 'e'],
    ['s', 'u', 'p'],
    ['y', 'o'],
    ['w', 'h', 'a', 't', '\'', 's', ' ', 'u', 'p'],
    ['w', 'h', 'a', 't', 's', ' ', 'u', 'p'] ]

/-- `greetingRegex.test s`: the whole (already lowercased) string is one of
the greeting literals followed only by characters of `[\s!.,?]`.  The regex
is anchored on both sides, so the test holds iff some alternative works;
alternation order cannot change the boolean. -/
def greetingTest (s : List Char) : Bool :=
  greetings.any fun g => g.isPrefixOf s && (s.drop g.length).all greetClass

/-- `s.split(/\s+/).filter(Boolean)`: split at whitespace characters and
drop the empty fragments (JavaScript's split on `\s+` produces one leading
empty fragment for leading whitespace, which `filter(Boolean)` removes, so
splitting at single characters and dropping all empties agrees with it). -/
def wsTokens (s : List Char) : List (List Char) :=
  (s.splitOnP jsSpace).filter (fun t => !t.isEmpty)

/-- The alternatives of `\b(who|what|when|where|why|how|which|whom|whose)\b`. -/
def questionWords : List (List Char) :=
  [ ['w', 'h', 'o'],
    ['w', 'h', 'a', 't'],
    ['w', 'h', 'e', 'n'],
    ['w', 'h', 'e', 'r', 'e'],
    ['w', 'h', 'y'],
    ['h', 'o', 'w'],
    ['w', 'h', 'i', 'c', 'h'],
    ['w', 'h', 'o', 'm'],
    ['w', 'h', 'o', 's', 'e'] ]

/-- Does a question word start exactly here (with its trailing `\b`)?  The
leading `\b` is checked by the caller; the first character of every
alternative is a word character. -/
def qwHere (l : List Char) : Bool :=
  questionWords.any fun w => w.isPrefixOf l && boundaryAfter l w.length

/-- Unanchored search for `\b(who|...)\b`: try every position, tracking
whether the previous character was a word character (for the leading `\b`). -/
def qwSearch : Bool → List Char → Bool
  | _, [] => false
  | prevWord, c :: rest => (!prevWord && qwHere (c :: rest)) || qwSearch (jsWord c) rest

/-- `questionWords.test s` on the lowercased string. -/
def questionWordsTest (s : List Char) : Bool := qwSearch false s

/-- `isLikelyChitchat` from src/index.js: greeting regex, then the
single-short-token rule, then the short-non-question rule.  `!question`
is true exactly for the empty string. -/
def isLikelyChitchat (question : List Char) : Bool :=
  if question = [] then false
  else
    let s := toLowerStr (jsTrim question)
    if greetingTest s then true
    else
      let tokens := wsTokens s
      if tokens.length == 1 && (tokens.headD []).length ≤ 4 then true
      else if s.length ≤ 10 && !questionWordsTest s then true
      else false

/-! ## Similarity index and retrieval policy (src/index.js lines 18–72, 213–237)

Scores are modelled as rationals: the retrieval policy only compares scores,
so any archimedean ordered field models the JavaScript comparisons of the
float scores faithfully.  Cosine similarity itself involves `Math.sqrt`, so
the similarity function is passed as a parameter `sim` wherever a score is
produced; no claim depends on its numeric values. -/

/-- `SimpleVectorStore`: parallel lists of vectors and documents. -/
structure VectorStore (α : Type) where
  vectors : List (List ℚ)
  documents : List α

/-- `getScoresForQuery` (lines 37–45): score every stored vector against the
query embedding (`this.documents[i]` is `undefined`, i.e. `none`, when the
lists are not parallel) and sort descending by score.  `Array.prototype.sort`
is stable, as is `List.mergeSort`; the comparator `(a, b) => b.score - a.score`
keeps `a` before `b` iff `b.score ≤ a.score`. -/
def getScoresForQuery {α : Type} (sim : List ℚ → List ℚ → ℚ)
    (store : VectorStore α) (qEmbedding : List ℚ) : List (ℚ × Option α) :=
  let scores := store.vectors.enum.map fun iv =>
    (sim iv.2 qEmbedding, store.documents.get? iv.1)
  scores.mergeSort (fun a b => decide (b.1 ≤ a.1))

/-- `scores[0]?.score || 0`: the top score, or `0` when there are no scores
(a top score equal to `0` is also falsy, but `|| 0` then yields `0` again). -/
def topScoreOf {α : Type} (scores : List (ℚ × α)) : ℚ :=
  match scores with
  | [] => 0
  | s :: _ => s.1

/-- The adaptive threshold shared by both call sites:
`topScore > 0.9 ? 0.75 : topScore > 0.8 ? 0.7 : low`. -/
def adaptiveThreshold (topScore low : ℚ) : ℚ :=
  if 9 / 10 < topScore then 3 / 4 else if 8 / 10 < topScore then 7 / 10 else low

/-- The body of `asRetriever(topK, minScore).getRelevantDocuments` (lines
47–71): keep the scores at or above the adaptive threshold, capped at
`topK`; if none pass, fall back to the top `topK` unfiltered. -/
def getRelevantDocuments {α : Type} (scores : List (ℚ × α))
    (topK : Nat) (minScore : ℚ) : List α :=
  let topScore := topScoreOf scores
  let threshold := adaptiveThreshold topScore minScore
  let filtered := (scores.filter fun s => decide (threshold ≤ s.1)).take topK
  let topMatches := scores.take topK
  let chosen := if filtered.length > 0 then filtered else topMatches
  chosen.map Prod.snd

/-- The docs branch of `askDocsStream` (lines 232–237): same policy with the
low threshold fixed at `0.2`. -/
def askDocsChosenDocs {α : Type} (scores : List (ℚ × α)) (topK : Nat) : List α :=
  let topScore := topScoreOf scores
  let threshold := adaptiveThreshold topScore (1 / 5)
  let filtered := (scores.filter fun s => decide (threshold ≤ s.1)).take topK
  let chosen := if filtered.length > 0 then filtered else scores.take topK
  chosen.map Prod.snd

/-- The two answer sources. -/
inductive Source where
  | docs
  | openai
deriving DecidableEq, Repr

/-- The routing decision of `askDocsStream` (lines 194–257), together with
the number of `getScoresForQuery` calls it performs: a chitchat question is
routed to the general prompt without touching the index; otherwise the index
is queried once and the result routes by `topScore < 0.25`.  The `scores`
argument stands for what that single query would return. -/
def askDocsRoute {α : Type} (question : List Char)
    (scores : List (ℚ × α)) : Source × Nat :=
  if isLikelyChitchat question then (Source.openai, 0)
  else if topScoreOf scores < 1 / 4 then (Source.openai, 1)
  else (Source.docs, 1)

/-! ## The streaming response controller (`streamModelResponse`, lines 260–499)

The controller is modelled as a state machine.  A run consumes a list of
input events — decoded upstream content tokens (the SSE/JSON decoding layer
passes each `choices[0].delta.content` through unchanged and silently skips
malformed lines), timer fires (the 1 s start timeout and the 120 ms periodic
flush both execute `flushIfNeeded(true)`, with its own internal guards), and
client-disconnect notifications (`close`/`error` on the response, both of
which run `onClientClose`) — and then executes the `finally` block.  Writes
to the response channel are recorded in an `out` log; `res.end()` sets
`writableEnded`; `reader.cancel()` invocations are counted in
`cancelCount`.  The upstream-HTTP-failure early return (lines 274–285) is
before this state machine starts and is not modelled. -/

/-- Events written to the response channel. -/
inductive Out where
  /-- The SSE comment ping `: processing`. -/
  | ping
  /-- A content event `data: {"source": ..., "content": ...}`. -/
  | data (src : Source) (content : List Char)
  /-- The terminal marker `data: [DONE]`. -/
  | doneMarker
deriving DecidableEq, Repr

/-- Inputs driving one streaming session. -/
inductive Ev where
  /-- A decoded upstream content token. -/
  | token (content : List Char)
  /-- A timer fire (start timeout or periodic flush): `flushIfNeeded(true)`. -/
  | tick
  /-- A client `close`/`error` notification: `onClientClose`. -/
  | close
deriving DecidableEq, Repr

/-- The mutable per-request state of `streamModelResponse`. -/
structure St where
  buffer : List Char
  lastSentLen : Nat
  startedStreaming : Bool
  headersSent : Bool
  ended : Bool
  statusPingSent : Bool
  clientClosed : Bool
  writableEnded : Bool
  out : List Out
  cancelCount : Nat
deriving DecidableEq, Repr

/-- The state at the top of the streaming section (lines 296–305). -/
def initSt : St := ⟨[], 0, false, false, false, false, false, false, [], 0⟩

/-- `safeWrite` (lines 334–343): write unless the session has ended, the
response is finished, or the client is gone. -/
def safeWrite (s : St) (d : Out) : St :=
  if s.ended || s.writableEnded || s.clientClosed then s
  else { s with out := s.out ++ [d] }

/-- `ensureHeaders` (lines 322–332): headers are not response-channel
events; only the flag is tracked. -/
def ensureHeaders (s : St) : St :=
  if s.headersSent || s.writableEnded || s.clientClosed then s
  else { s with headersSent := true }

/-- `res.end()`: the response channel is closed. -/
def resEnd (s : St) : St := { s with writableEnded := true }

/-- `onClientClose` (lines 308–314): set the flags and cancel the upstream
reader.  Every invocation calls `reader.cancel()`. -/
def onClientClose (s : St) : St :=
  { s with clientClosed := true, ended := true, cancelCount := s.cancelCount + 1 }

/-- `sendChunk` (lines 345–354). -/
def sendChunk (src : Source) (chunk : List Char) (s : St) : St :=
  if chunk = [] || s.ended || s.writableEnded || s.clientClosed then s
  else
    let s1 := ensureHeaders s
    let s2 :=
      if !s1.statusPingSent then { safeWrite s1 Out.ping with statusPingSent := true }
      else s1
    safeWrite s2 (Out.data src chunk)

/-- `flushIfNeeded` (lines 373–400).  `STREAM_START_THRESHOLD = 128`,
`MIN_SEND_DELTA = 8`.  The `startPeriodicFlush()` call only arms the timer
modelled by `Ev.tick`.  The delta is a JavaScript number, hence `Int`. -/
def flushIfNeeded (src : Source) (force : Bool) (s : St) : St :=
  if s.ended || s.writableEnded || s.clientClosed then s
  else if !s.startedStreaming then
    let stripped := stripLeadingPhrases s.buffer
    if 128 ≤ (jsTrim stripped).length || (force && 0 < (jsTrim stripped).length) then
      let s1 := { s with startedStreaming := true, buffer := stripped }
      let toSend := jsTrim (s1.buffer.drop s1.lastSentLen)
      if toSend = [] then s1
      else
        let s2 := sendChunk src toSend s1
        { s2 with lastSentLen := s2.buffer.length }
    else s
  else
    if (8 : Int) ≤ (s.buffer.length : Int) - (s.lastSentLen : Int) || force then
      let chunk := jsTrim (stripLeadingPhrases (s.buffer.drop s.lastSentLen))
      let s1 := if chunk = [] then s else sendChunk src chunk s
      { s1 with lastSentLen := s1.buffer.length }
    else s

/-- One step of the buffered docs loop (lines 453–480 plus the handlers):
a truthy content token is appended to the buffer, the buffer prefix is
stripped while streaming has not started, and `flushIfNeeded()` runs. -/
def stepDocs (s : St) : Ev → St
  | Ev.token c =>
      if s.clientClosed then s
      else if c = [] then s
      else
        let s1 := { s with buffer := s.buffer ++ c }
        let s2 :=
          if !s1.startedStreaming then { s1 with buffer := stripLeadingPhrases s1.buffer }
          else s1
        flushIfNeeded Source.docs false s2
  | Ev.tick => flushIfNeeded Source.docs true s
  | Ev.close => onClientClose s

/-- One step of the immediate general-knowledge loop (lines 411–433): each
truthy content token is forwarded directly. -/
def stepOpenai (s : St) : Ev → St
  | Ev.token c =>
      if s.clientClosed then s
      else if c ≠ [] && !s.clientClosed && !s.writableEnded then
        safeWrite s (Out.data Source.openai c)
      else s
  | Ev.tick => s
  | Ev.close => onClientClose s

/-- The writes preceding the general-knowledge loop (lines 404–409). -/
def preloopOpenai (s : St) : St :=
  let s1 := ensureHeaders s
  if !s1.statusPingSent then { safeWrite s1 Out.ping with statusPingSent := true }
  else s1

/-- The guarded terminal write shared by both `finally` blocks (lines
436–439 and 492–495): write `data: [DONE]` and close the response if the
session is still live. -/
def terminalWrite (s : St) : St :=
  if !s.ended && !s.writableEnded && !s.clientClosed then
    resEnd (safeWrite s Out.doneMarker)
  else s

/-- The inner `finally` of the general-knowledge branch (lines 434–443). -/
def innerFinalizeOpenai (s : St) : St :=
  { terminalWrite s with ended := true }

/-- The literal fallback sentence of line 489, apostrophe U+2019:
`I don’t know based on the provided documents.` -/
def fallbackSentence : List Char :=
  ['I', ' ', 'd', 'o', 'n', rsq, 't', ' ', 'k', 'n', 'o', 'w', ' ',
   'b', 'a', 's', 'e', 'd', ' ', 'o', 'n', ' ', 't', 'h', 'e', ' ',
   'p', 'r', 'o', 'v', 'i', 'd', 'e', 'd', ' ', 'd', 'o', 'c', 'u',
   'm', 'e', 'n', 't', 's', '.']

/-- Lines 487–490: if streaming never started in document mode and the
client is still there, synthesize the fallback sentence. -/
def fallbackWrite (src : Source) (s : St) : St :=
  if !s.startedStreaming && src == Source.docs && !s.clientClosed then
    sendChunk src fallbackSentence (ensureHeaders s)
  else s

/-- The outer `finally` (lines 483–498): a final forced flush, the
document-mode terminal fallback, and the single terminal marker.
`clearTimers()` only disarms the timers modelled by `Ev.tick`. -/
def finalizeShared (src : Source) (s : St) : St :=
  { terminalWrite (fallbackWrite src (flushIfNeeded src true s)) with ended := true }

/-- Fold the per-event step over the input trace. -/
def runEvents (step : St → Ev → St) (s : St) (events : List Ev) : St :=
  events.foldl step s

/-- A whole `streamModelResponse` session after the upstream call succeeded:
the general-knowledge branch returns from inside its inner `finally`, which
still runs the outer `finally` (a no-op there since `ended` is already set);
the docs branch falls through to the outer `finally` directly. -/
def run (src : Source) (events : List Ev) : St :=
  match src with
  | Source.docs => finalizeShared Source.docs (runEvents stepDocs initSt events)
  | Source.openai =>
      finalizeShared Source.openai
        (innerFinalizeOpenai (runEvents stepOpenai (preloopOpenai initSt) events))

/-- The contents of the `data:` content events of a write log, in order. -/
def dataContents (l : List Out) : List (List Char) :=
  l.filterMap fun o =>
    match o with
    | Out.data _ c => some c
    | _ => none

/-- The three flags that allow writing: a session is live while none of
`ended`, `res.writableEnded`, `clientClosed` is set. -/
def Live (s : St) : Prop :=
  s.ended = false ∧ s.writableEnded = false ∧ s.clientClosed = false

/-- The invariant maintained by the docs loop of `streamModelResponse`: the
sent length never exceeds the buffer length; the response is never finished
by the loop itself; `ended` is only ever set together with `clientClosed`;
and while streaming has not started nothing has been sent or written at
all. -/
def DocsLoopInv (s : St) : Prop :=
  s.lastSentLen ≤ s.buffer.length ∧
  s.writableEnded = false ∧
  (s.ended = true → s.clientClosed = true) ∧
  (s.startedStreaming = false →
    s.lastSentLen = 0 ∧ s.out = [] ∧ s.statusPingSent = false ∧ s.headersSent = false)

/-- A concrete mid-stream state used to witness the post-start flush
behavior: streaming has started, eight unsent buffered characters. -/
def c4MidSt : St :=
  St.mk ['a', 'b', 'c', 'd', 'e', 'f', 'g', 'h'] 0 true true false true false false [] 0

/-- The token of the C4 counterexample trace whose forwarded increment gets
phrase-stripped: `"I do not like this"`. -/
def c4Token : List Char :=
  ['I', ' ', 'd', 'o', ' ', 'n', 'o', 't', ' ', 'l', 'i', 'k', 'e', ' ', 't', 'h', 'i', 's']

/-! ## Helper lemmas: the stripper only removes a prefix -/

theorem applyRule_isSuffix (alts : List Alt) (tail : Char → Bool) (l : List Char) :
    applyRule alts tail l <:+ l := by
  unfold applyRule
  cases h : matchAlts alts tail l with
  | none => exact List.suffix_refl l
  | some n => exact List.drop_suffix n l

theorem stripLeadingPhrases_isSuffix (l : List Char) : stripLeadingPhrases l <:+ l := by
  unfold stripLeadingPhrases
  split
  · exact List.suffix_refl l
  · exact (List.drop_suffix _ _).trans
      ((applyRule_isSuffix _ _ _).trans
        ((applyRule_isSuffix _ _ _).trans
          ((applyRule_isSuffix _ _ _).trans
            ((applyRule_isSuffix _ _ _).trans (List.drop_suffix _ _)))))

/-! ## Claim C5 -/

/-- C5: `stripLeadingPhrases` is a total function (so it terminates without
throwing on every input, including every truncated prefix of the fallback
sentence), and its result is always a suffix of its input: it only ever
removes leading material, never text past the point where the prefix rules
stop matching. -/
theorem c5_strip_total_and_suffix (l : List Char) : stripLeadingPhrases l <:+ l :=
  stripLeadingPhrases_isSuffix l

/-! ## Claim C3 -/

/-- C3, counterexample: `stripLeadingPhrases` is not idempotent.  On the
input `"i don"`, one application yields `"don"` (rule 4 consumes the lone
`i`, and its `i\s+don` alternative is unreachable because the `i`
alternative succeeds first), and a second application strips `"don"` down to
`""`. -/
theorem c3_not_idempotent_cex :
    stripLeadingPhrases (stripLeadingPhrases ['i', ' ', 'd', 'o', 'n']) ≠
      stripLeadingPhrases ['i', ' ', 'd', 'o', 'n'] := by decide

/-- C3, amended: `stripLeadingPhrases` is not idempotent (a second
application can strip further residual tokens, as in `strip "i don" =
"don"` but `strip "don" = ""`); what does hold for every input is that
re-application only removes further leading material: `strip (strip s)` is
a suffix of `strip s`. -/
theorem c3_strip_reapply_suffix (l : List Char) :
    stripLeadingPhrases (stripLeadingPhrases l) <:+ stripLeadingPhrases l :=
  stripLeadingPhrases_isSuffix (stripLeadingPhrases l)

/-! ## Claim C8 -/

theorem getRelevantDocuments_le_topK {α : Type} (scores : List (ℚ × α))
    (topK : Nat) (minScore : ℚ) :
    (getRelevantDocuments scores topK minScore).length ≤ topK := by
  unfold getRelevantDocuments
  simp only [List.length_map]
  split <;> simp only [List.length_take] <;> exact min_le_left _ _

theorem askDocsChosenDocs_le_topK {α : Type} (scores : List (ℚ × α)) (topK : Nat) :
    (askDocsChosenDocs scores topK).length ≤ topK := by
  unfold askDocsChosenDocs
  simp only [List.length_map]
  split <;> simp only [List.length_take] <;> exact min_le_left _ _

theorem getRelevantDocuments_pos {α : Type} (scores : List (ℚ × α))
    (topK : Nat) (minScore : ℚ) (hne : scores ≠ []) (hk : 1 ≤ topK) :
    1 ≤ (getRelevantDocuments scores topK minScore).length := by
  have hpos : 0 < scores.length := List.length_pos.mpr hne
  unfold getRelevantDocuments
  simp only [List.length_map]
  split
  case isTrue h =>
    simp only [List.length_take] at h ⊢
    exact h
  case isFalse h =>
    simp only [List.length_take]
    exact le_min hk hpos

theorem askDocsChosenDocs_pos {α : Type} (scores : List (ℚ × α))
    (topK : Nat) (hne : scores ≠ []) (hk : 1 ≤ topK) :
    1 ≤ (askDocsChosenDocs scores topK).length := by
  have hpos : 0 < scores.length := List.length_pos.mpr hne
  unfold askDocsChosenDocs
  simp only [List.length_map]
  split
  case isTrue h =>
    simp only [List.length_take] at h ⊢
    exact h
  case isFalse h =>
    simp only [List.length_take]
    exact le_min hk hpos

/-- C8: for every sorted score list, both retrieval-policy call sites
(`asRetriever`'s `getRelevantDocuments` and the docs branch of
`askDocsStream`) return at most `topK` chunks — unconditionally, both
branches of the policy are `take topK` — and whenever the index is
non-empty (the score list is non-empty and `topK ≥ 1`) and the top score is
at least `0.25`, they return at least one chunk: if no score passes the
adaptive threshold, the unfiltered top `topK` are used. -/
theorem c8_retrieval_policy_bounds {α : Type} (scores : List (ℚ × α))
    (topK : Nat) (minScore : ℚ)
    (hsorted : scores.Sorted fun a b => b.1 ≤ a.1) :
    (getRelevantDocuments scores topK minScore).length ≤ topK ∧
      (askDocsChosenDocs scores topK).length ≤ topK ∧
      (scores ≠ [] → 1 ≤ topK → 1 / 4 ≤ topScoreOf scores →
        1 ≤ (getRelevantDocuments scores topK minScore).length ∧
          1 ≤ (askDocsChosenDocs scores topK).length) :=
  ⟨getRelevantDocuments_le_topK scores topK minScore,
    askDocsChosenDocs_le_topK scores topK,
    fun hne hk _ =>
      ⟨getRelevantDocuments_pos scores topK minScore hne hk,
        askDocsChosenDocs_pos scores topK hne hk⟩⟩

/-- C8 witness: a concrete singleton score list with top score `1/2`,
discharging the sortedness hypothesis and the non-emptiness, `topK`, and
confidence hypotheses of the at-least-one-chunk clause. -/
theorem c8_retrieval_policy_bounds_witness :
    ((getRelevantDocuments [((1 : ℚ) / 2, (0 : Nat))] 4 (1 / 2)).length ≤ 4 ∧
        (askDocsChosenDocs [((1 : ℚ) / 2, (0 : Nat))] 4).length ≤ 4) ∧
      (1 ≤ (getRelevantDocuments [((1 : ℚ) / 2, (0 : Nat))] 4 (1 / 2)).length ∧
        1 ≤ (askDocsChosenDocs [((1 : ℚ) / 2, (0 : Nat))] 4).length) :=
  have h := c8_retrieval_policy_bounds [((1 : ℚ) / 2, (0 : Nat))] 4 (1 / 2)
    (List.sorted_singleton _)
  ⟨⟨h.1, h.2.1⟩, h.2.2 (by simp) (by norm_num) (by unfold topScoreOf; norm_num)⟩

/-! ## Claim C9 -/

/-- C9, counterexample: querying the similarity index with no stored
vectors does not fail: `getScoresForQuery` succeeds and returns the empty
score list (the `map` over `this.vectors` is empty, and sorting the empty
list succeeds).  No `EmptyIndex` error exists anywhere in the code. -/
theorem c9_empty_index_succeeds_cex :
    getScoresForQuery (fun _ _ => 0) (VectorStore.mk [] ([] : List Nat)) [] = [] := by
  simp [getScoresForQuery]

/-- C9, amended: on an index with no vectors, `getScoresForQuery` succeeds
with the empty score list; the caller `askDocsStream` then computes
`topScore = 0 < 0.25` and routes to general-knowledge mode (source
`openai`) instead of erroring. -/
theorem c9_empty_index_routes_general {α : Type} (sim : List ℚ → List ℚ → ℚ)
    (store : VectorStore α) (qEmb : List ℚ) (question : List Char)
    (h : store.vectors = []) :
    getScoresForQuery sim store qEmb = [] ∧
      (askDocsRoute question (getScoresForQuery sim store qEmb)).1 = Source.openai := by
  have hempty : getScoresForQuery sim store qEmb = [] := by
    simp [getScoresForQuery, h]
  refine ⟨hempty, ?_⟩
  rw [hempty]
  unfold askDocsRoute
  split
  · rfl
  · simp only [topScoreOf]
    norm_num

/-- C9 witness: the concrete empty store. -/
theorem c9_empty_index_routes_general_witness :
    getScoresForQuery (fun _ _ => 0) (VectorStore.mk [] ([] : List Nat)) [] = [] ∧
      (askDocsRoute ['x']
          (getScoresForQuery (fun _ _ => 0) (VectorStore.mk [] ([] : List Nat)) [])).1 =
        Source.openai :=
  c9_empty_index_routes_general (fun _ _ => 0) (VectorStore.mk [] ([] : List Nat)) [] ['x'] rfl

/-! ## Claim C10 -/

/-- C10: every question classified as chitchat by `isLikelyChitchat` is
routed to general-knowledge mode with source `openai`, and the similarity
index is queried zero times (`getScoresForQuery` is never called: the
chitchat early-return precedes the single query site). -/
theorem c10_chitchat_bypasses_index {α : Type} (question : List Char)
    (scores : List (ℚ × α)) (h : isLikelyChitchat question = true) :
    askDocsRoute question scores = (Source.openai, 0) := by
  unfold askDocsRoute
  simp [h]

/-- C10 witness: the question `"hi"` is classified as chitchat (it matches
the greeting regex) and routes to `openai` with zero index queries. -/
theorem c10_chitchat_bypasses_index_witness :
    isLikelyChitchat ['h', 'i'] = true ∧
      askDocsRoute ['h', 'i'] ([] : List (ℚ × Nat)) = (Source.openai, 0) :=
  ⟨by decide, c10_chitchat_bypasses_index ['h', 'i'] [] (by decide)⟩

/-! ## Helper lemmas: which fields each controller operation can touch -/

@[simp] theorem safeWrite_buffer (s : St) (d : Out) : (safeWrite s d).buffer = s.buffer := by
  unfold safeWrite; split <;> rfl

@[simp] theorem safeWrite_lastSentLen (s : St) (d : Out) :
    (safeWrite s d).lastSentLen = s.lastSentLen := by
  unfold safeWrite; split <;> rfl

@[simp] theorem safeWrite_started (s : St) (d : Out) :
    (safeWrite s d).startedStreaming = s.startedStreaming := by
  unfold safeWrite; split <;> rfl

@[simp] theorem safeWrite_headersSent (s : St) (d : Out) :
    (safeWrite s d).headersSent = s.headersSent := by
  unfold safeWrite; split <;> rfl

@[simp] theorem safeWrite_ended (s : St) (d : Out) : (safeWrite s d).ended = s.ended := by
  unfold safeWrite; split <;> rfl

@[simp] theorem safeWrite_statusPingSent (s : St) (d : Out) :
    (safeWrite s d).statusPingSent = s.statusPingSent := by
  unfold safeWrite; split <;> rfl

@[simp] theorem safeWrite_clientClosed (s : St) (d : Out) :
    (safeWrite s d).clientClosed = s.clientClosed := by
  unfold safeWrite; split <;> rfl

@[simp] theorem safeWrite_writableEnded (s : St) (d : Out) :
    (safeWrite s d).writableEnded = s.writableEnded := by
  unfold safeWrite; split <;> rfl

@[simp] theorem safeWrite_cancelCount (s : St) (d : Out) :
    (safeWrite s d).cancelCount = s.cancelCount := by
  unfold safeWrite; split <;> rfl

@[simp] theorem ensureHeaders_buffer (s : St) : (ensureHeaders s).buffer = s.buffer := by
  unfold ensureHeaders; split <;> rfl

@[simp] theorem ensureHeaders_lastSentLen (s : St) :
    (ensureHeaders s).lastSentLen = s.lastSentLen := by
  unfold ensureHeaders; split <;> rfl

@[simp] theorem ensureHeaders_started (s : St) :
    (ensureHeaders s).startedStreaming = s.startedStreaming := by
  unfold ensureHeaders; split <;> rfl

@[simp] theorem ensureHeaders_ended (s : St) : (ensureHeaders s).ended = s.ended := by
  unfold ensureHeaders; split <;> rfl

@[simp] theorem ensureHeaders_statusPingSent (s : St) :
    (ensureHeaders s).statusPingSent = s.statusPingSent := by
  unfold ensureHeaders; split <;> rfl

@[simp] theorem ensureHeaders_clientClosed (s : St) :
    (ensureHeaders s).clientClosed = s.clientClosed := by
  unfold ensureHeaders; split <;> rfl

@[simp] theorem ensureHeaders_writableEnded (s : St) :
    (ensureHeaders s).writableEnded = s.writableEnded := by
  unfold ensureHeaders; split <;> rfl

@[simp] theorem ensureHeaders_out (s : St) : (ensureHeaders s).out = s.out := by
  unfold ensureHeaders; split <;> rfl

@[simp] theorem ensureHeaders_cancelCount (s : St) :
    (ensureHeaders s).cancelCount = s.cancelCount := by
  unfold ensureHeaders; split <;> rfl

@[simp] theorem sendChunk_buffer (src : Source) (chunk : List Char) (s : St) :
    (sendChunk src chunk s).buffer = s.buffer := by
  simp only [sendChunk]
  repeat' split
  all_goals simp

@[simp] theorem sendChunk_lastSentLen (src : Source) (chunk : List Char) (s : St) :
    (sendChunk src chunk s).lastSentLen = s.lastSentLen := by
  simp only [sendChunk]
  repeat' split
  all_goals simp

@[simp] theorem sendChunk_started (src : Source) (chunk : List Char) (s : St) :
    (sendChunk src chunk s).startedStreaming = s.startedStreaming := by
  simp only [sendChunk]
  repeat' split
  all_goals simp

@[simp] theorem sendChunk_ended (src : Source) (chunk : List Char) (s : St) :
    (sendChunk src chunk s).ended = s.ended := by
  simp only [sendChunk]
  repeat' split
  all_goals simp

@[simp] theorem sendChunk_clientClosed (src : Source) (chunk : List Char) (s : St) :
    (sendChunk src chunk s).clientClosed = s.clientClosed := by
  simp only [sendChunk]
  repeat' split
  all_goals simp

@[simp] theorem sendChunk_writableEnded (src : Source) (chunk : List Char) (s : St) :
    (sendChunk src chunk s).writableEnded = s.writableEnded := by
  simp only [sendChunk]
  repeat' split
  all_goals simp

@[simp] theorem sendChunk_cancelCount (src : Source) (chunk : List Char) (s : St) :
    (sendChunk src chunk s).cancelCount = s.cancelCount := by
  simp only [sendChunk]
  repeat' split
  all_goals simp

theorem flushIfNeeded_ended (src : Source) (force : Bool) (s : St) :
    (flushIfNeeded src force s).ended = s.ended := by
  simp only [flushIfNeeded]
  repeat' split
  all_goals simp

theorem flushIfNeeded_clientClosed (src : Source) (force : Bool) (s : St) :
    (flushIfNeeded src force s).clientClosed = s.clientClosed := by
  simp only [flushIfNeeded]
  repeat' split
  all_goals simp

theorem flushIfNeeded_writableEnded (src : Source) (force : Bool) (s : St) :
    (flushIfNeeded src force s).writableEnded = s.writableEnded := by
  simp only [flushIfNeeded]
  repeat' split
  all_goals simp

theorem flushIfNeeded_cancelCount (src : Source) (force : Bool) (s : St) :
    (flushIfNeeded src force s).cancelCount = s.cancelCount := by
  simp only [flushIfNeeded]
  repeat' split
  all_goals simp

/-! ## Helper lemmas: the write log only grows, and `[DONE]` is only written
in the finalizers -/

theorem safeWrite_out_extends (s : St) (d : Out) : s.out <+: (safeWrite s d).out := by
  unfold safeWrite; split
  · exact List.prefix_refl _
  · exact List.prefix_append _ _

theorem safeWrite_count_done (s : St) (d : Out) (h : d ≠ Out.doneMarker) :
    (safeWrite s d).out.count Out.doneMarker = s.out.count Out.doneMarker := by
  unfold safeWrite; split
  · rfl
  · simp [List.count_append, List.count_cons, h]

theorem sendChunk_out_extends (src : Source) (chunk : List Char) (s : St) :
    s.out <+: (sendChunk src chunk s).out := by
  simp only [sendChunk]
  split
  · exact List.prefix_refl _
  · split
    · refine List.IsPrefix.trans ?_ (safeWrite_out_extends _ _)
      have h1 : s.out <+: (safeWrite (ensureHeaders s) Out.ping).out := by
        rw [← ensureHeaders_out s]
        exact safeWrite_out_extends _ _
      simpa using h1
    · refine List.IsPrefix.trans ?_ (safeWrite_out_extends _ _)
      rw [ensureHeaders_out]

theorem sendChunk_count_done (src : Source) (chunk : List Char) (s : St) :
    (sendChunk src chunk s).out.count Out.doneMarker = s.out.count Out.doneMarker := by
  simp only [sendChunk]
  repeat' split
  all_goals simp [safeWrite_count_done, ensureHeaders_out]

/-! ## Helper lemmas: behavior of `flushIfNeeded` -/

theorem flushIfNeeded_out_extends (src : Source) (force : Bool) (s : St) :
    s.out <+: (flushIfNeeded src force s).out := by
  simp only [flushIfNeeded]
  repeat' split
  all_goals first
    | exact List.prefix_refl _
    | (refine List.IsPrefix.trans ?_ (sendChunk_out_extends _ _ _)
       simp)

theorem flushIfNeeded_count_done (src : Source) (force : Bool) (s : St) :
    (flushIfNeeded src force s).out.count Out.doneMarker = s.out.count Out.doneMarker := by
  simp only [flushIfNeeded]
  repeat' split
  all_goals simp [sendChunk_count_done]

theorem flushIfNeeded_closed_eq (src : Source) (force : Bool) (s : St)
    (h : s.clientClosed = true) : flushIfNeeded src force s = s := by
  unfold flushIfNeeded
  simp [h]

theorem flushIfNeeded_not_started_eq (src : Source) (force : Bool) (s : St)
    (h : (flushIfNeeded src force s).startedStreaming = false) :
    flushIfNeeded src force s = s := by
  revert h
  simp only [flushIfNeeded]
  repeat' split
  all_goals intro h
  all_goals first | rfl | simp_all

theorem flushIfNeeded_lastSentLen_mono (src : Source) (force : Bool) (s : St)
    (h1 : s.lastSentLen ≤ s.buffer.length)
    (h2 : s.startedStreaming = false → s.lastSentLen = 0) :
    s.lastSentLen ≤ (flushIfNeeded src force s).lastSentLen := by
  simp only [flushIfNeeded]
  repeat' split
  all_goals simp_all

theorem flushIfNeeded_inv (src : Source) (force : Bool) (s : St)
    (h : DocsLoopInv s) : DocsLoopInv (flushIfNeeded src force s) := by
  obtain ⟨h1, h2, h3, h4⟩ := h
  simp only [flushIfNeeded]
  repeat' split
  all_goals exact ⟨by simp_all, by simp_all, by simp_all, by simp_all⟩

/-! ## Helper lemmas: the per-event steps -/

theorem stepDocs_count_done (s : St) (e : Ev) :
    (stepDocs s e).out.count Out.doneMarker = s.out.count Out.doneMarker := by
  cases e with
  | token c =>
      simp only [stepDocs]
      repeat' split
      all_goals simp [flushIfNeeded_count_done]
  | tick => exact flushIfNeeded_count_done _ _ _
  | close => rfl

theorem stepOpenai_count_done (s : St) (e : Ev) :
    (stepOpenai s e).out.count Out.doneMarker = s.out.count Out.doneMarker := by
  cases e with
  | token c =>
      simp only [stepOpenai]
      repeat' split
      all_goals simp [safeWrite_count_done]
  | tick => rfl
  | close => rfl

theorem stepDocs_live (s : St) (e : Ev) (he : e ≠ Ev.close) (h : Live s) :
    Live (stepDocs s e) := by
  obtain ⟨h1, h2, h3⟩ := h
  cases e with
  | token c =>
      refine ⟨?_, ?_, ?_⟩ <;>
        (simp only [stepDocs]
         repeat' split
         all_goals
           simp_all [flushIfNeeded_ended, flushIfNeeded_writableEnded,
             flushIfNeeded_clientClosed])
  | tick =>
      exact ⟨(flushIfNeeded_ended _ _ _).trans h1,
        (flushIfNeeded_writableEnded _ _ _).trans h2,
        (flushIfNeeded_clientClosed _ _ _).trans h3⟩
  | close => exact absurd rfl he

theorem stepOpenai_live (s : St) (e : Ev) (he : e ≠ Ev.close) (h : Live s) :
    Live (stepOpenai s e) := by
  obtain ⟨h1, h2, h3⟩ := h
  cases e with
  | token c =>
      refine ⟨?_, ?_, ?_⟩ <;>
        (simp only [stepOpenai]
         repeat' split
         all_goals simp_all)
  | tick => exact ⟨h1, h2, h3⟩
  | close => exact absurd rfl he

theorem stepDocs_closed (s : St) (e : Ev) (h : s.clientClosed = true) :
    (stepDocs s e).out = s.out ∧ (stepDocs s e).clientClosed = true := by
  cases e with
  | token c => simp [stepDocs, h]
  | tick =>
      have : stepDocs s Ev.tick = s := flushIfNeeded_closed_eq _ _ _ h
      rw [this]
      exact ⟨rfl, h⟩
  | close => exact ⟨rfl, rfl⟩

theorem stepOpenai_closed (s : St) (e : Ev) (h : s.clientClosed = true) :
    (stepOpenai s e).out = s.out ∧ (stepOpenai s e).clientClosed = true := by
  cases e with
  | token c => simp [stepOpenai, h]
  | tick => exact ⟨rfl, h⟩
  | close => exact ⟨rfl, rfl⟩

theorem stepDocs_cancel (s : St) (e : Ev) :
    (stepDocs s e).cancelCount = s.cancelCount + (if e = Ev.close then 1 else 0) := by
  cases e with
  | token c =>
      simp only [stepDocs]
      repeat' split
      all_goals simp_all [flushIfNeeded_cancelCount]
  | tick => simp [stepDocs, flushIfNeeded_cancelCount]
  | close => simp [stepDocs, onClientClose]

theorem stepOpenai_cancel (s : St) (e : Ev) :
    (stepOpenai s e).cancelCount = s.cancelCount + (if e = Ev.close then 1 else 0) := by
  cases e with
  | token c =>
      simp only [stepOpenai]
      repeat' split
      all_goals simp_all
  | tick => simp [stepOpenai]
  | close => simp [stepOpenai, onClientClose]

/-! ## Helper lemmas: folding the steps over a trace -/

theorem runEvents_cons (step : St → Ev → St) (s : St) (e : Ev) (rest : List Ev) :
    runEvents step s (e :: rest) = runEvents step (step s e) rest := rfl

theorem runEvents_count_done (step : St → Ev → St)
    (hstep : ∀ s e, (step s e).out.count Out.doneMarker = s.out.count Out.doneMarker) :
    ∀ (events : List Ev) (s : St),
      (runEvents step s events).out.count Out.doneMarker = s.out.count Out.doneMarker := by
  intro events
  induction events with
  | nil => intro s; rfl
  | cons e rest ih =>
      intro s
      rw [runEvents_cons, ih (step s e), hstep]

theorem runEvents_live (step : St → Ev → St)
    (hstep : ∀ s e, e ≠ Ev.close → Live s → Live (step s e)) :
    ∀ (events : List Ev), Ev.close ∉ events → ∀ s, Live s →
      Live (runEvents step s events) := by
  intro events
  induction events with
  | nil => intro _ s h; exact h
  | cons e rest ih =>
      intro hev s h
      have he : e ≠ Ev.close := by
        intro hc
        exact hev (by rw [hc]; exact List.mem_cons_self _ _)
      have hrest : Ev.close ∉ rest := fun hm => hev (List.mem_cons_of_mem _ hm)
      exact ih hrest (step s e) (hstep s e he h)

theorem runEvents_closed (step : St → Ev → St)
    (hstep : ∀ s e, s.clientClosed = true →
      (step s e).out = s.out ∧ (step s e).clientClosed = true) :
    ∀ (events : List Ev) (s : St), s.clientClosed = true →
      (runEvents step s events).out = s.out ∧
        (runEvents step s events).clientClosed = true := by
  intro events
  induction events with
  | nil => intro s h; exact ⟨rfl, h⟩
  | cons e rest ih =>
      intro s h
      obtain ⟨ho, hc⟩ := hstep s e h
      obtain ⟨ho2, hc2⟩ := ih (step s e) hc
      exact ⟨ho2.trans ho, hc2⟩

theorem runEvents_cancel (step : St → Ev → St)
    (hstep : ∀ s e, (step s e).cancelCount = s.cancelCount + (if e = Ev.close then 1 else 0)) :
    ∀ (events : List Ev) (s : St),
      (runEvents step s events).cancelCount = s.cancelCount + events.count Ev.close := by
  intro events
  induction events with
  | nil => intro s; simp [runEvents]
  | cons e rest ih =>
      intro s
      rw [runEvents_cons, ih (step s e), hstep, List.count_cons]
      by_cases he : e = Ev.close
      · simp [he]
        omega
      · simp [he]

/-! ## Helper lemmas: the finalizers -/

theorem terminalWrite_count_done_le (s : St) :
    (terminalWrite s).out.count Out.doneMarker ≤ s.out.count Out.doneMarker + 1 := by
  unfold terminalWrite resEnd safeWrite
  repeat' split
  all_goals simp [List.count_append]

theorem terminalWrite_live_out (s : St) (h : Live s) :
    (terminalWrite s).out = s.out ++ [Out.doneMarker] := by
  obtain ⟨h1, h2, h3⟩ := h
  unfold terminalWrite resEnd safeWrite
  simp [h1, h2, h3]

theorem terminalWrite_not_live_eq (s : St)
    (h : ¬(s.ended = false ∧ s.writableEnded = false ∧ s.clientClosed = false)) :
    terminalWrite s = s := by
  unfold terminalWrite
  split
  case isTrue hc =>
    exfalso
    apply h
    constructor
    · cases he : s.ended <;> simp_all
    constructor
    · cases hw : s.writableEnded <;> simp_all
    · cases hcc : s.clientClosed <;> simp_all
  case isFalse => rfl

theorem fallbackWrite_count_done (src : Source) (s : St) :
    (fallbackWrite src s).out.count Out.doneMarker = s.out.count Out.doneMarker := by
  unfold fallbackWrite
  split
  · rw [sendChunk_count_done, ensureHeaders_out]
  · rfl

theorem fallbackWrite_closed_eq (src : Source) (s : St) (h : s.clientClosed = true) :
    fallbackWrite src s = s := by
  unfold fallbackWrite
  simp [h]

theorem fallbackWrite_flags (src : Source) (s : St) :
    (fallbackWrite src s).ended = s.ended ∧
      (fallbackWrite src s).writableEnded = s.writableEnded ∧
      (fallbackWrite src s).clientClosed = s.clientClosed ∧
      (fallbackWrite src s).cancelCount = s.cancelCount ∧
      (fallbackWrite src s).buffer = s.buffer ∧
      (fallbackWrite src s).lastSentLen = s.lastSentLen := by
  unfold fallbackWrite
  split <;> simp

theorem terminalWrite_flags (s : St) :
    (terminalWrite s).clientClosed = s.clientClosed ∧
      (terminalWrite s).cancelCount = s.cancelCount ∧
      (terminalWrite s).buffer = s.buffer ∧
      (terminalWrite s).lastSentLen = s.lastSentLen := by
  unfold terminalWrite resEnd
  split <;> simp

theorem flushIfNeeded_ended_eq (src : Source) (force : Bool) (s : St)
    (h : s.ended = true) : flushIfNeeded src force s = s := by
  unfold flushIfNeeded
  simp [h]

theorem sendChunk_ended_out (src : Source) (chunk : List Char) (s : St)
    (h : s.ended = true) : (sendChunk src chunk s).out = s.out := by
  unfold sendChunk
  simp [h]

theorem fallbackWrite_ended_out (src : Source) (s : St) (h : s.ended = true) :
    (fallbackWrite src s).out = s.out := by
  unfold fallbackWrite
  split
  · rw [sendChunk_ended_out _ _ _ (by rw [ensureHeaders_ended]; exact h), ensureHeaders_out]
  · rfl

theorem fallbackWrite_ended (src : Source) (s : St) :
    (fallbackWrite src s).ended = s.ended := (fallbackWrite_flags src s).1

theorem finalizeShared_ended_out (src : Source) (s : St) (h : s.ended = true) :
    (finalizeShared src s).out = s.out := by
  unfold finalizeShared
  rw [flushIfNeeded_ended_eq src true s h]
  have hterm : terminalWrite (fallbackWrite src s) = fallbackWrite src s := by
    apply terminalWrite_not_live_eq
    intro hc
    rw [fallbackWrite_ended, h] at hc
    exact absurd hc.1 (by simp)
  show (terminalWrite (fallbackWrite src s)).out = s.out
  rw [hterm, fallbackWrite_ended_out src s h]

theorem finalizeShared_closed_out (src : Source) (s : St) (h : s.clientClosed = true) :
    (finalizeShared src s).out = s.out := by
  unfold finalizeShared
  rw [flushIfNeeded_closed_eq src true s h, fallbackWrite_closed_eq src s h]
  have hterm : terminalWrite s = s := by
    apply terminalWrite_not_live_eq
    intro hc
    rw [h] at hc
    exact absurd hc.2.2 (by simp)
  show (terminalWrite s).out = s.out
  rw [hterm]

theorem finalizeShared_count_done_le (src : Source) (s : St) :
    (finalizeShared src s).out.count Out.doneMarker ≤ s.out.count Out.doneMarker + 1 := by
  unfold finalizeShared
  show (terminalWrite (fallbackWrite src (flushIfNeeded src true s))).out.count Out.doneMarker ≤ _
  calc (terminalWrite (fallbackWrite src (flushIfNeeded src true s))).out.count Out.doneMarker
      ≤ (fallbackWrite src (flushIfNeeded src true s)).out.count Out.doneMarker + 1 :=
        terminalWrite_count_done_le _
    _ = (flushIfNeeded src true s).out.count Out.doneMarker + 1 := by
        rw [fallbackWrite_count_done]
    _ = s.out.count Out.doneMarker + 1 := by rw [flushIfNeeded_count_done]

theorem finalizeShared_count_done_live (src : Source) (s : St) (h : Live s) :
    (finalizeShared src s).out.count Out.doneMarker = s.out.count Out.doneMarker + 1 := by
  obtain ⟨h1, h2, h3⟩ := h
  have l1 : Live (flushIfNeeded src true s) :=
    ⟨(flushIfNeeded_ended _ _ _).trans h1, (flushIfNeeded_writableEnded _ _ _).trans h2,
      (flushIfNeeded_clientClosed _ _ _).trans h3⟩
  have l2 : Live (fallbackWrite src (flushIfNeeded src true s)) := by
    obtain ⟨f1, f2, f3, _, _, _⟩ := fallbackWrite_flags src (flushIfNeeded src true s)
    exact ⟨f1.trans l1.1, f2.trans l1.2.1, f3.trans l1.2.2⟩
  unfold finalizeShared
  show (terminalWrite (fallbackWrite src (flushIfNeeded src true s))).out.count Out.doneMarker = _
  rw [terminalWrite_live_out _ l2]
  simp only [List.count_append]
  rw [fallbackWrite_count_done, flushIfNeeded_count_done]
  simp

theorem finalizeShared_cancel (src : Source) (s : St) :
    (finalizeShared src s).cancelCount = s.cancelCount := by
  unfold finalizeShared
  show (terminalWrite (fallbackWrite src (flushIfNeeded src true s))).cancelCount = _
  rw [(terminalWrite_flags _).2.1, (fallbackWrite_flags _ _).2.2.2.1,
    flushIfNeeded_cancelCount]

theorem innerFinalizeOpenai_cancel (s : St) :
    (innerFinalizeOpenai s).cancelCount = s.cancelCount := by
  unfold innerFinalizeOpenai
  show (terminalWrite s).cancelCount = _
  rw [(terminalWrite_flags _).2.1]

theorem innerFinalizeOpenai_ended (s : St) : (innerFinalizeOpenai s).ended = true := rfl

theorem innerFinalizeOpenai_count_done_le (s : St) :
    (innerFinalizeOpenai s).out.count Out.doneMarker ≤ s.out.count Out.doneMarker + 1 := by
  unfold innerFinalizeOpenai
  show (terminalWrite s).out.count Out.doneMarker ≤ _
  exact terminalWrite_count_done_le s

theorem innerFinalizeOpenai_count_done_live (s : St) (h : Live s) :
    (innerFinalizeOpenai s).out.count Out.doneMarker = s.out.count Out.doneMarker + 1 := by
  unfold innerFinalizeOpenai
  show (terminalWrite s).out.count Out.doneMarker = _
  rw [terminalWrite_live_out _ h]
  simp [List.count_append]

theorem innerFinalizeOpenai_closed (s : St) (h : s.clientClosed = true) :
    (innerFinalizeOpenai s).out = s.out ∧ (innerFinalizeOpenai s).clientClosed = true := by
  unfold innerFinalizeOpenai
  have hterm : terminalWrite s = s := by
    apply terminalWrite_not_live_eq
    intro hc
    rw [h] at hc
    exact absurd hc.2.2 (by simp)
  constructor
  · show (terminalWrite s).out = s.out
    rw [hterm]
  · show (terminalWrite s).clientClosed = true
    rw [hterm, h]

/-! ## Helper lemmas: the docs-loop invariant -/

theorem runEvents_pres (step : St → Ev → St) (P : St → Prop)
    (hstep : ∀ s e, P s → P (step s e)) :
    ∀ (events : List Ev) (s : St), P s → P (runEvents step s events) := by
  intro events
  induction events with
  | nil => intro s h; exact h
  | cons e rest ih => intro s h; exact ih (step s e) (hstep s e h)

theorem stepDocs_inv (s : St) (e : Ev) (h : DocsLoopInv s) : DocsLoopInv (stepDocs s e) := by
  obtain ⟨h1, h2, h3, h4⟩ := h
  cases e with
  | token c =>
      simp only [stepDocs]
      split
      · exact ⟨h1, h2, h3, h4⟩
      split
      · exact ⟨h1, h2, h3, h4⟩
      apply flushIfNeeded_inv
      split
      case isTrue hst =>
        obtain ⟨hl, ho, hp, hh⟩ := h4 (by simp_all)
        refine ⟨by simp [hl], by simp [h2], h3, ?_⟩
        intro _
        simp_all
      case isFalse hst =>
        refine ⟨?_, by simp [h2], h3, ?_⟩
        · simp only [List.length_append]
          calc s.lastSentLen ≤ s.buffer.length := h1
            _ ≤ s.buffer.length + c.length := Nat.le_add_right _ _
        · intro hcon
          simp_all
  | tick => exact flushIfNeeded_inv _ _ _ ⟨h1, h2, h3, h4⟩
  | close =>
      exact ⟨h1, h2, fun _ => rfl, fun hns => h4 hns⟩

theorem initSt_inv : DocsLoopInv initSt := by
  refine ⟨?_, rfl, ?_, ?_⟩ <;> simp [initSt]

theorem stepDocs_lastSentLen_mono (s : St) (e : Ev) (h : DocsLoopInv s) :
    s.lastSentLen ≤ (stepDocs s e).lastSentLen := by
  obtain ⟨h1, h2, h3, h4⟩ := h
  cases e with
  | token c =>
      simp only [stepDocs]
      split
      · exact le_refl _
      split
      · exact le_refl _
      split
      case isTrue hst =>
        have h0 : s.lastSentLen = 0 := (h4 (by simp_all)).1
        rw [h0]
        exact Nat.zero_le _
      case isFalse hst =>
        refine flushIfNeeded_lastSentLen_mono Source.docs false
          { s with buffer := s.buffer ++ c } ?_ ?_
        · simp only [List.length_append]
          calc s.lastSentLen ≤ s.buffer.length := h1
            _ ≤ s.buffer.length + c.length := Nat.le_add_right _ _
        · intro hcon
          simp_all
  | tick => exact flushIfNeeded_lastSentLen_mono _ _ _ h1 fun hns => (h4 hns).1
  | close => exact le_refl _

theorem finalizeShared_lastSentLen (src : Source) (s : St) :
    (finalizeShared src s).lastSentLen = (flushIfNeeded src true s).lastSentLen := by
  unfold finalizeShared
  show (terminalWrite (fallbackWrite src (flushIfNeeded src true s))).lastSentLen = _
  rw [(terminalWrite_flags _).2.2.2, (fallbackWrite_flags _ _).2.2.2.2.2]

theorem finalizeShared_buffer (src : Source) (s : St) :
    (finalizeShared src s).buffer = (flushIfNeeded src true s).buffer := by
  unfold finalizeShared
  show (terminalWrite (fallbackWrite src (flushIfNeeded src true s))).buffer = _
  rw [(terminalWrite_flags _).2.2.1, (fallbackWrite_flags _ _).2.2.2.2.1]

theorem runEvents_append (step : St → Ev → St) (s : St) (l1 l2 : List Ev) :
    runEvents step s (l1 ++ l2) = runEvents step (runEvents step s l1) l2 := by
  simp [runEvents, List.foldl_append]

theorem stepDocs_out_extends (s : St) (e : Ev) : s.out <+: (stepDocs s e).out := by
  cases e with
  | token c =>
      simp only [stepDocs]
      repeat' split
      all_goals first
        | exact List.prefix_refl _
        | (refine List.IsPrefix.trans ?_ (flushIfNeeded_out_extends _ _ _)
           simp)
  | tick => exact flushIfNeeded_out_extends _ _ _
  | close => exact List.prefix_refl _

theorem flushIfNeeded_started_emit (src : Source) (s : St)
    (h1 : s.startedStreaming = true) (h2 : s.ended = false) (h3 : s.writableEnded = false)
    (h4 : s.clientClosed = false) (h5 : s.statusPingSent = true)
    (h6 : jsTrim (stripLeadingPhrases (s.buffer.drop s.lastSentLen)) ≠ []) :
    (flushIfNeeded src true s).out =
      s.out ++ [Out.data src (jsTrim (stripLeadingPhrases (s.buffer.drop s.lastSentLen)))] := by
  unfold flushIfNeeded
  simp only [h1, h2, h3, h4, Bool.or_false, Bool.or_true, Bool.not_true, Bool.false_or]
  rw [if_neg (by simp), if_neg (by simp), if_pos (by simp)]
  rw [if_neg h6]
  unfold sendChunk safeWrite
  simp [h2, h3, h4, h5, h6]

theorem finalizeShared_docs_fallback (s : St)
    (hflush : flushIfNeeded Source.docs true s = s)
    (hst : s.startedStreaming = false) (hcc : s.clientClosed = false)
    (hen : s.ended = false) (hwe : s.writableEnded = false)
    (hsp : s.statusPingSent = false) (hout : s.out = []) :
    (finalizeShared Source.docs s).out =
      [Out.ping, Out.data Source.docs fallbackSentence, Out.doneMarker] := by
  have hfs : fallbackSentence ≠ [] := by decide
  have hout2 : (fallbackWrite Source.docs s).out =
      [Out.ping, Out.data Source.docs fallbackSentence] := by
    unfold fallbackWrite
    rw [if_pos (by simp [hst, hcc])]
    unfold sendChunk safeWrite
    simp [hen, hwe, hcc, hsp, hout, hfs]
  have hlv : Live (fallbackWrite Source.docs s) := by
    obtain ⟨f1, f2, f3, _, _, _⟩ := fallbackWrite_flags Source.docs s
    exact ⟨f1.trans hen, f2.trans hwe, f3.trans hcc⟩
  unfold finalizeShared
  rw [hflush]
  show (terminalWrite (fallbackWrite Source.docs s)).out = _
  rw [terminalWrite_live_out _ hlv, hout2]
  rfl

/-! ## Claim C1 -/

/-- C1: in every `streamModelResponse` session (either source, any input
trace), the terminal `data: [DONE]` marker is written at most once; exactly
once when the client never disconnects; and once the client-disconnect flag
is set, nothing further of any kind is written to the response channel (the
write log of the whole run equals the write log at the moment of the first
disconnect). -/
theorem c1_done_once_and_silence_after_disconnect (src : Source) (events : List Ev) :
    (run src events).out.count Out.doneMarker ≤ 1 ∧
      (Ev.close ∉ events → (run src events).out.count Out.doneMarker = 1) ∧
      (∀ pre suf, events = pre ++ Ev.close :: suf →
        (run src events).out = (run src (pre ++ [Ev.close])).out) := by
  cases src with
  | docs =>
      refine ⟨?_, ?_, ?_⟩
      · have hl : (runEvents stepDocs initSt events).out.count Out.doneMarker = 0 :=
          (runEvents_count_done stepDocs stepDocs_count_done events initSt).trans rfl
        have hle := finalizeShared_count_done_le Source.docs (runEvents stepDocs initSt events)
        show (finalizeShared Source.docs (runEvents stepDocs initSt events)).out.count
          Out.doneMarker ≤ 1
        omega
      · intro hnc
        have hlive : Live (runEvents stepDocs initSt events) :=
          runEvents_live stepDocs stepDocs_live events hnc initSt ⟨rfl, rfl, rfl⟩
        have hl : (runEvents stepDocs initSt events).out.count Out.doneMarker = 0 :=
          (runEvents_count_done stepDocs stepDocs_count_done events initSt).trans rfl
        show (finalizeShared Source.docs (runEvents stepDocs initSt events)).out.count
          Out.doneMarker = 1
        rw [finalizeShared_count_done_live _ _ hlive, hl]
      · intro pre suf hsplit
        have hC : (runEvents stepDocs initSt (pre ++ [Ev.close])).clientClosed = true := by
          rw [runEvents_append]
          rfl
        have hsplit2 : events = (pre ++ [Ev.close]) ++ suf := by rw [hsplit]; simp
        rw [hsplit2]
        show (finalizeShared Source.docs
            (runEvents stepDocs initSt ((pre ++ [Ev.close]) ++ suf))).out =
          (finalizeShared Source.docs (runEvents stepDocs initSt (pre ++ [Ev.close]))).out
        rw [runEvents_append stepDocs initSt (pre ++ [Ev.close]) suf]
        obtain ⟨hout, hcl⟩ := runEvents_closed stepDocs stepDocs_closed suf _ hC
        rw [finalizeShared_closed_out _ _ hcl, hout, finalizeShared_closed_out _ _ hC]
  | openai =>
      refine ⟨?_, ?_, ?_⟩
      · have hl : (runEvents stepOpenai (preloopOpenai initSt) events).out.count
            Out.doneMarker = 0 :=
          (runEvents_count_done stepOpenai stepOpenai_count_done events
            (preloopOpenai initSt)).trans (by decide)
        have hle := innerFinalizeOpenai_count_done_le
          (runEvents stepOpenai (preloopOpenai initSt) events)
        show (finalizeShared Source.openai (innerFinalizeOpenai
          (runEvents stepOpenai (preloopOpenai initSt) events))).out.count Out.doneMarker ≤ 1
        rw [finalizeShared_ended_out _ _ (innerFinalizeOpenai_ended _)]
        omega
      · intro hnc
        have hlive : Live (runEvents stepOpenai (preloopOpenai initSt) events) :=
          runEvents_live stepOpenai stepOpenai_live events hnc (preloopOpenai initSt)
            (by unfold Live; decide)
        have hl : (runEvents stepOpenai (preloopOpenai initSt) events).out.count
            Out.doneMarker = 0 :=
          (runEvents_count_done stepOpenai stepOpenai_count_done events
            (preloopOpenai initSt)).trans (by decide)
        show (finalizeShared Source.openai (innerFinalizeOpenai
          (runEvents stepOpenai (preloopOpenai initSt) events))).out.count Out.doneMarker = 1
        rw [finalizeShared_ended_out _ _ (innerFinalizeOpenai_ended _),
          innerFinalizeOpenai_count_done_live _ hlive, hl]
      · intro pre suf hsplit
        have hC : (runEvents stepOpenai (preloopOpenai initSt)
            (pre ++ [Ev.close])).clientClosed = true := by
          rw [runEvents_append]
          rfl
        have hsplit2 : events = (pre ++ [Ev.close]) ++ suf := by rw [hsplit]; simp
        rw [hsplit2]
        show (finalizeShared Source.openai (innerFinalizeOpenai
            (runEvents stepOpenai (preloopOpenai initSt) ((pre ++ [Ev.close]) ++ suf)))).out =
          (finalizeShared Source.openai (innerFinalizeOpenai
            (runEvents stepOpenai (preloopOpenai initSt) (pre ++ [Ev.close])))).out
        rw [runEvents_append stepOpenai (preloopOpenai initSt) (pre ++ [Ev.close]) suf]
        obtain ⟨hout, hcl⟩ := runEvents_closed stepOpenai stepOpenai_closed suf _ hC
        obtain ⟨hio, hic⟩ := innerFinalizeOpenai_closed _ hcl
        obtain ⟨hio2, hic2⟩ := innerFinalizeOpenai_closed _ hC
        rw [finalizeShared_closed_out _ _ hic, hio, hout,
          finalizeShared_closed_out _ _ hic2, hio2]

/-- C1 witness: a completed docs run with the client connected writes the
marker exactly once, and a general-knowledge run that disconnects writes
nothing after the disconnect. -/
theorem c1_done_once_witness :
    (run Source.docs [Ev.token ['h', 'i']]).out.count Out.doneMarker = 1 ∧
      (run Source.openai [Ev.tick, Ev.close, Ev.tick]).out =
        (run Source.openai [Ev.tick, Ev.close]).out :=
  ⟨(c1_done_once_and_silence_after_disconnect Source.docs [Ev.token ['h', 'i']]).2.1
      (by decide),
    (c1_done_once_and_silence_after_disconnect Source.openai
      [Ev.tick, Ev.close, Ev.tick]).2.2 [Ev.tick] [Ev.tick] rfl⟩

/-! ## Claim C2 -/

/-- C2, counterexample: the claim quotes the fallback sentence with an
ASCII apostrophe (`I don't ...`), but the sentence the controller actually
sends (src/index.js line 489) uses the right single quotation mark U+2019
(`I don’t ...`): on a docs run with no upstream content the single content
event is not the claimed ASCII string. -/
theorem c2_fallback_apostrophe_cex :
    dataContents (run Source.docs []).out ≠
      [['I', ' ', 'd', 'o', 'n', '\'', 't', ' ', 'k', 'n', 'o', 'w', ' ', 'b', 'a', 's',
        'e', 'd', ' ', 'o', 'n', ' ', 't', 'h', 'e', ' ', 'p', 'r', 'o', 'v', 'i', 'd',
        'e', 'd', ' ', 'd', 'o', 'c', 'u', 'm', 'e', 'n', 't', 's', '.']] := by decide

/-- C2, amended: if a document-mode session never starts streaming (also
not in the final forced flush) and the client is still connected, then the
controller sends exactly one content event, whose content is the literal
fallback sentence `I don’t know based on the provided documents.` — with
U+2019 as its apostrophe — as the entire response body. -/
theorem c2_terminal_fallback (events : List Ev)
    (hns : (flushIfNeeded Source.docs true
      (runEvents stepDocs initSt events)).startedStreaming = false)
    (hcc : (runEvents stepDocs initSt events).clientClosed = false) :
    dataContents (run Source.docs events).out = [fallbackSentence] := by
  obtain ⟨h1, h2, h3, h4⟩ :=
    runEvents_pres stepDocs DocsLoopInv stepDocs_inv events initSt initSt_inv
  have hflush := flushIfNeeded_not_started_eq Source.docs true _ hns
  rw [hflush] at hns
  have hen : (runEvents stepDocs initSt events).ended = false := by
    cases he : (runEvents stepDocs initSt events).ended
    · rfl
    · rw [h3 he] at hcc
      exact absurd hcc (by simp)
  obtain ⟨hl0, hout, hsp, hh⟩ := h4 hns
  show dataContents (finalizeShared Source.docs (runEvents stepDocs initSt events)).out = _
  rw [finalizeShared_docs_fallback _ hflush hns hcc hen h2 hsp hout]
  rfl

/-- C2 witness: the empty upstream trace. -/
theorem c2_terminal_fallback_witness :
    dataContents (run Source.docs []).out = [fallbackSentence] :=
  c2_terminal_fallback [] (by decide) (by decide)

/-! ## Claim C4 -/

/-- C4, counterexample: once streaming has started, forwarded increments
ARE still phrase-stripped (src/index.js line 394 applies
`stripLeadingPhrases` to `buffer.slice(lastSentLen)`).  In this concrete
docs trace the session starts streaming with `abc` (forced by the start
timeout), and the next increment `I do not like this` is forwarded as
`like this` — not as its trimmed raw value. -/
theorem c4_post_start_strip_cex :
    (run Source.docs [Ev.token ['a', 'b', 'c'], Ev.tick, Ev.token c4Token]).out =
      [Out.ping, Out.data Source.docs ['a', 'b', 'c'],
        Out.data Source.docs ['l', 'i', 'k', 'e', ' ', 't', 'h', 'i', 's'], Out.doneMarker] ∧
      jsTrim c4Token ≠ ['l', 'i', 'k', 'e', ' ', 't', 'h', 'i', 's'] := by decide

/-- C4, amended: while streaming has not started the stripper is applied to
the whole buffer prefix; once the STREAMING state is entered, each
not-yet-sent increment is again passed through the phrase stripper (and
trimmed) before being forwarded; what is never touched is already-emitted
output — the write log is append-only under every step. -/
theorem c4_stripping_scope (s : St) (e : Ev)
    (h1 : s.startedStreaming = true) (h2 : s.ended = false) (h3 : s.writableEnded = false)
    (h4 : s.clientClosed = false) (h5 : s.statusPingSent = true)
    (h6 : jsTrim (stripLeadingPhrases (s.buffer.drop s.lastSentLen)) ≠ []) :
    s.out <+: (stepDocs s e).out ∧
      (flushIfNeeded Source.docs true s).out =
        s.out ++ [Out.data Source.docs
          (jsTrim (stripLeadingPhrases (s.buffer.drop s.lastSentLen)))] :=
  ⟨stepDocs_out_extends s e, flushIfNeeded_started_emit Source.docs s h1 h2 h3 h4 h5 h6⟩

/-- C4 witness: a concrete started-streaming state with pending content. -/
theorem c4_stripping_scope_witness :
    c4MidSt.out <+: (stepDocs c4MidSt Ev.tick).out ∧
      (flushIfNeeded Source.docs true c4MidSt).out =
        c4MidSt.out ++ [Out.data Source.docs
          (jsTrim (stripLeadingPhrases (c4MidSt.buffer.drop c4MidSt.lastSentLen)))] :=
  c4_stripping_scope c4MidSt Ev.tick rfl rfl rfl rfl rfl (by decide)

/-! ## Claim C6 -/

/-- C6: along a docs-mode stream session, `lastSentLen` never exceeds the
current buffer length, and it is monotonically non-decreasing across every
transition: any further step, and the finalizer, can only keep or grow it,
and both preserve the bound. -/
theorem c6_sent_len_monotone_and_bounded (events : List Ev) (e : Ev) :
    (runEvents stepDocs initSt events).lastSentLen ≤
        (runEvents stepDocs initSt events).buffer.length ∧
      (runEvents stepDocs initSt events).lastSentLen ≤
        (stepDocs (runEvents stepDocs initSt events) e).lastSentLen ∧
      (stepDocs (runEvents stepDocs initSt events) e).lastSentLen ≤
        (stepDocs (runEvents stepDocs initSt events) e).buffer.length ∧
      (runEvents stepDocs initSt events).lastSentLen ≤
        (finalizeShared Source.docs (runEvents stepDocs initSt events)).lastSentLen ∧
      (finalizeShared Source.docs (runEvents stepDocs initSt events)).lastSentLen ≤
        (finalizeShared Source.docs (runEvents stepDocs initSt events)).buffer.length := by
  have hinv := runEvents_pres stepDocs DocsLoopInv stepDocs_inv events initSt initSt_inv
  have hinv2 := stepDocs_inv _ e hinv
  have hmono := stepDocs_lastSentLen_mono _ e hinv
  have hfinv := flushIfNeeded_inv Source.docs true _ hinv
  have hfmono := flushIfNeeded_lastSentLen_mono Source.docs true _ hinv.1
    fun hns => (hinv.2.2.2 hns).1
  refine ⟨hinv.1, hmono, hinv2.1, ?_, ?_⟩
  · rw [finalizeShared_lastSentLen]
    exact hfmono
  · rw [finalizeShared_lastSentLen, finalizeShared_buffer]
    exact hfinv.1

/-! ## Claim C7 -/

/-- C7, counterexample: `onClientClose` has no idempotency guard — it calls
`reader.cancel()` on every invocation, and it is registered for both the
`close` and the `error` event of the response.  When two disconnect/error
notifications are delivered, the upstream reader is cancelled twice, not
once. -/
theorem c7_duplicate_close_double_cancel_cex :
    (run Source.docs [Ev.close, Ev.close]).cancelCount = 2 ∧
      (run Source.docs [Ev.close, Ev.close]).cancelCount ≠ 1 := by decide

/-- C7, amended: `reader.cancel()` is invoked exactly once per delivered
disconnect/error notification — so a single mid-stream disconnect cancels
the upstream reader exactly once, but duplicate notifications each trigger
a further cancellation (there is no idempotency guard). -/
theorem c7_cancel_once_per_close_event (src : Source) (events : List Ev) :
    (run src events).cancelCount = events.count Ev.close := by
  cases src with
  | docs =>
      show (finalizeShared Source.docs (runEvents stepDocs initSt events)).cancelCount = _
      rw [finalizeShared_cancel, runEvents_cancel stepDocs stepDocs_cancel events initSt,
        show initSt.cancelCount = 0 from rfl, Nat.zero_add]
  | openai =>
      show (finalizeShared Source.openai (innerFinalizeOpenai
        (runEvents stepOpenai (preloopOpenai initSt) events))).cancelCount = _
      rw [finalizeShared_cancel, innerFinalizeOpenai_cancel,
        runEvents_cancel stepOpenai stepOpenai_cancel events (preloopOpenai initSt),
        show (preloopOpenai initSt).cancelCount = 0 from rfl, Nat.zero_add]

end OpenAiServer
